import Mathlib

/-!
Verification of the Scotopia deposit attestation pipeline.

The development shallowly embeds the core services of the repository:
the privacy tier classifier (src/services/privacy.ts), the deposit
verifier and duplicate detector (src/services/verifier.ts), the
attestation minter (src/services/minter.ts) and the deposit event
handler of the server entry point (src/index.ts).

Numbers of type `number` in the source are modelled as rationals `ℚ`
(only comparisons occur, never floating-point rounding), millisecond
timestamps as `Int`, and the JavaScript `Map` used by the rate limiter
as an insertion-ordered association list, matching `Map` iteration
order.  Each stateful function takes its state and the current clock
reading explicitly and returns the updated state.
-/

namespace Scotopia

/-- A privacy tier from the configuration: a name and a minimum
qualifying amount (src/config/loadConfig.ts, `PrivacyTier`). -/
structure PrivacyTier where
  name : String
  threshold : ℚ
deriving DecidableEq

/-- Result of tier classification (src/services/privacy.ts,
`TierAssignment`): the tier name, the bucketed amount exposed to
callers, and the original amount. -/
structure TierAssignment where
  tier : String
  amount : ℚ
  originalAmount : ℚ
deriving DecidableEq

/-- One insertion step of a stable sort by threshold descending.  The
source sorts with `[...tiers].sort((a, b) => b.threshold - a.threshold)`;
JavaScript `Array.prototype.sort` is stable, and a stable sort under a
total preorder has a unique result, so this insertion sort (which keeps
earlier input elements before later ones on equal thresholds) computes
the same list. -/
def insertTierDesc (t : PrivacyTier) : List PrivacyTier → List PrivacyTier
  | [] => [t]
  | h :: rest =>
    if h.threshold ≤ t.threshold then t :: h :: rest else h :: insertTierDesc t rest

/-- Stable sort of the tier table by threshold descending, as performed
at the top of `getPrivacyTier`. -/
def sortTiersDesc : List PrivacyTier → List PrivacyTier
  | [] => []
  | t :: rest => insertTierDesc t (sortTiersDesc rest)

/-- The scan loop of `getPrivacyTier`: return the first tier whose
threshold is at most the amount, else the "No Tier" sentinel. -/
def findTier (amount : ℚ) : List PrivacyTier → TierAssignment
  | [] => ⟨"No Tier", 0, amount⟩
  | t :: rest =>
    if t.threshold ≤ amount then ⟨t.name, t.threshold, amount⟩ else findTier amount rest

/-- `getPrivacyTier` from src/services/privacy.ts: sort the tier table
by threshold descending, then return the first matching tier. -/
def getPrivacyTier (amount : ℚ) (tiers : List PrivacyTier) : TierAssignment :=
  findTier amount (sortTiersDesc tiers)

/-- `anonymizeAmount` from src/services/privacy.ts: the bucketed amount
of the assigned tier. -/
def anonymizeAmount (amount : ℚ) (tiers : List PrivacyTier) : ℚ :=
  (getPrivacyTier amount tiers).amount

theorem insertTierDesc_perm (t : PrivacyTier) :
    ∀ l : List PrivacyTier, List.Perm (insertTierDesc t l) (t :: l) := by
  intro l
  induction l with
  | nil => exact List.Perm.refl _
  | cons h rest ih =>
    rw [insertTierDesc]
    by_cases hc : h.threshold ≤ t.threshold
    · rw [if_pos hc]
    · rw [if_neg hc]
      exact (ih.cons h).trans (List.Perm.swap t h rest)

theorem sortTiersDesc_perm :
    ∀ l : List PrivacyTier, List.Perm (sortTiersDesc l) l := by
  intro l
  induction l with
  | nil => exact List.Perm.refl _
  | cons t rest ih =>
    rw [sortTiersDesc]
    exact (insertTierDesc_perm t (sortTiersDesc rest)).trans (ih.cons t)

theorem insertTierDesc_sorted (t : PrivacyTier) (l : List PrivacyTier)
    (hl : List.Pairwise (fun a b => b.threshold ≤ a.threshold) l) :
    List.Pairwise (fun a b => b.threshold ≤ a.threshold) (insertTierDesc t l) := by
  induction l with
  | nil => simp [insertTierDesc]
  | cons h rest ih =>
    rw [insertTierDesc]
    rcases List.pairwise_cons.mp hl with ⟨hhead, hrest⟩
    by_cases hc : h.threshold ≤ t.threshold
    · rw [if_pos hc]
      refine List.pairwise_cons.mpr ⟨?_, hl⟩
      intro b hb
      rcases List.mem_cons.mp hb with rfl | hb'
      · exact hc
      · exact (hhead b hb').trans hc
    · rw [if_neg hc]
      refine List.pairwise_cons.mpr ⟨?_, ih hrest⟩
      intro b hb
      rcases List.mem_cons.mp ((insertTierDesc_perm t rest).mem_iff.mp hb) with rfl | hb'
      · exact le_of_not_le hc
      · exact hhead b hb'

theorem sortTiersDesc_sorted :
    ∀ l : List PrivacyTier,
      List.Pairwise (fun a b => b.threshold ≤ a.threshold) (sortTiersDesc l) := by
  intro l
  induction l with
  | nil => simp [sortTiersDesc]
  | cons t rest ih =>
    rw [sortTiersDesc]
    exact insertTierDesc_sorted t (sortTiersDesc rest) ih

example : getPrivacyTier 150 [⟨"Tier A", 100⟩, ⟨"Tier B", 10⟩, ⟨"Tier C", 1⟩]
    = ⟨"Tier A", 100, 150⟩ := by decide

example : getPrivacyTier 25 [⟨"Tier A", 100⟩, ⟨"Tier B", 10⟩, ⟨"Tier C", 1⟩]
    = ⟨"Tier B", 10, 25⟩ := by decide

example : getPrivacyTier 0 [⟨"Tier A", 100⟩, ⟨"Tier B", 10⟩, ⟨"Tier C", 1⟩]
    = ⟨"No Tier", 0, 0⟩ := by decide

instance : IsAntisymm PrivacyTier (fun a b => b.threshold < a.threshold) :=
  ⟨fun _ _ h1 h2 => absurd (h1.trans h2) (lt_irrefl _)⟩

theorem sortTiersDesc_strict_sorted (m : List PrivacyTier)
    (hm : (m.map PrivacyTier.threshold).Nodup) :
    List.Pairwise (fun a b => b.threshold < a.threshold) (sortTiersDesc m) := by
  have hnd : ((sortTiersDesc m).map PrivacyTier.threshold).Nodup :=
    (((sortTiersDesc_perm m).map PrivacyTier.threshold).nodup_iff).mpr hm
  have hne : List.Pairwise (fun a b : PrivacyTier => a.threshold ≠ b.threshold)
      (sortTiersDesc m) := List.pairwise_map.mp hnd
  exact ((sortTiersDesc_sorted m).and hne).imp
    (fun h => lt_of_le_of_ne h.1 (Ne.symm h.2))

theorem sortTiersDesc_eq_of_perm (l l' : List PrivacyTier)
    (hperm : List.Perm l l')
    (hnodup : (l.map PrivacyTier.threshold).Nodup) :
    sortTiersDesc l = sortTiersDesc l' := by
  have hperm' : List.Perm (sortTiersDesc l) (sortTiersDesc l') :=
    ((sortTiersDesc_perm l).trans hperm).trans (sortTiersDesc_perm l').symm
  have hnodup' : (l'.map PrivacyTier.threshold).Nodup :=
    ((hperm.map PrivacyTier.threshold).nodup_iff).mp hnodup
  exact List.eq_of_perm_of_sorted hperm'
    (sortTiersDesc_strict_sorted l hnodup) (sortTiersDesc_strict_sorted l' hnodup')

/-- C2 (amended): for tier tables whose thresholds are pairwise distinct,
`getPrivacyTier` returns the same assignment (tier name, bucketed amount
and original amount) on any permutation of the table.  (The unrestricted
claim, with tied thresholds allowed, is refuted by
`getPrivacyTier_tie_order_dependent`.) -/
theorem getPrivacyTier_perm_invariant (amount : ℚ) (l l' : List PrivacyTier)
    (hperm : List.Perm l l')
    (hnodup : (l.map PrivacyTier.threshold).Nodup) :
    getPrivacyTier amount l = getPrivacyTier amount l' := by
  unfold getPrivacyTier
  rw [sortTiersDesc_eq_of_perm l l' hperm hnodup]

/-- Witness for `getPrivacyTier_perm_invariant` at a concrete table. -/
theorem getPrivacyTier_perm_invariant_witness :
    List.Perm [PrivacyTier.mk "Tier A" 100, PrivacyTier.mk "Tier B" 10]
      [PrivacyTier.mk "Tier B" 10, PrivacyTier.mk "Tier A" 100] ∧
    (([PrivacyTier.mk "Tier A" 100, PrivacyTier.mk "Tier B" 10].map
        PrivacyTier.threshold).Nodup) ∧
    getPrivacyTier 25 [PrivacyTier.mk "Tier A" 100, PrivacyTier.mk "Tier B" 10]
      = getPrivacyTier 25 [PrivacyTier.mk "Tier B" 10, PrivacyTier.mk "Tier A" 100] :=
  ⟨List.Perm.swap (PrivacyTier.mk "Tier B" 10) (PrivacyTier.mk "Tier A" 100) [],
   by decide,
   getPrivacyTier_perm_invariant 25 _ _
     (List.Perm.swap (PrivacyTier.mk "Tier B" 10) (PrivacyTier.mk "Tier A" 100) [])
     (by decide)⟩

/-- C2 counterexample: with two tiers sharing threshold 10, classifying
amount 10 depends on the input order of the table — the stable sort
keeps tied tiers in input order and the scan returns the first, so the
returned tier name differs between the two permutations. -/
theorem getPrivacyTier_tie_order_dependent :
    List.Perm [PrivacyTier.mk "A" 10, PrivacyTier.mk "B" 10]
      [PrivacyTier.mk "B" 10, PrivacyTier.mk "A" 10] ∧
    getPrivacyTier 10 [PrivacyTier.mk "A" 10, PrivacyTier.mk "B" 10] ≠
      getPrivacyTier 10 [PrivacyTier.mk "B" 10, PrivacyTier.mk "A" 10] :=
  ⟨List.Perm.swap (PrivacyTier.mk "B" 10) (PrivacyTier.mk "A" 10) [], by decide⟩

theorem findTier_no_match (amount : ℚ) :
    ∀ s : List PrivacyTier, (∀ t ∈ s, ¬ t.threshold ≤ amount) →
      findTier amount s = ⟨"No Tier", 0, amount⟩ := by
  intro s
  induction s with
  | nil => intro _; rfl
  | cons t rest ih =>
    intro h
    rw [findTier, if_neg (h t (List.mem_cons_self t rest))]
    exact ih (fun x hx => h x (List.mem_cons_of_mem t hx))

/-- C9: when no tier's threshold is at most the amount, `getPrivacyTier`
returns the sentinel "No Tier" with bucketed amount 0 and the original
amount unchanged. -/
theorem getPrivacyTier_no_match (amount : ℚ) (tiers : List PrivacyTier)
    (h : ∀ t ∈ tiers, ¬ t.threshold ≤ amount) :
    getPrivacyTier amount tiers = ⟨"No Tier", 0, amount⟩ := by
  unfold getPrivacyTier
  exact findTier_no_match amount _
    (fun t ht => h t ((sortTiersDesc_perm tiers).mem_iff.mp ht))

/-- Witness for `getPrivacyTier_no_match` at amount 0 against the demo
tier table. -/
theorem getPrivacyTier_no_match_witness :
    (∀ t ∈ [PrivacyTier.mk "Tier A" 100, PrivacyTier.mk "Tier B" 10],
        ¬ t.threshold ≤ (0 : ℚ)) ∧
    getPrivacyTier 0 [PrivacyTier.mk "Tier A" 100, PrivacyTier.mk "Tier B" 10]
      = ⟨"No Tier", 0, 0⟩ :=
  ⟨by decide, getPrivacyTier_no_match 0 _ (by decide)⟩

theorem findTier_amount_le_or_zero (amount : ℚ) (s : List PrivacyTier) :
    (findTier amount s).amount ≤ amount ∨ (findTier amount s).amount = 0 := by
  induction s with
  | nil => right; rfl
  | cons t rest ih =>
    rw [findTier]
    by_cases hc : t.threshold ≤ amount
    · rw [if_pos hc]
      exact Or.inl hc
    · rw [if_neg hc]
      exact ih

theorem findTier_idem (amount : ℚ) (s : List PrivacyTier)
    (hpos : ∀ t ∈ s, 0 ≤ t.threshold) :
    (findTier ((findTier amount s).amount) s).amount = (findTier amount s).amount := by
  induction s with
  | nil => rfl
  | cons t rest ih =>
    by_cases hc : t.threshold ≤ amount
    · have h1 : findTier amount (t :: rest) = ⟨t.name, t.threshold, amount⟩ := by
        rw [findTier, if_pos hc]
      rw [h1]
      show (findTier t.threshold (t :: rest)).amount = t.threshold
      rw [findTier, if_pos (le_refl t.threshold)]
    · have h1 : findTier amount (t :: rest) = findTier amount rest := by
        rw [findTier, if_neg hc]
      rw [h1]
      by_cases h2 : t.threshold ≤ (findTier amount rest).amount
      · have h3 : findTier ((findTier amount rest).amount) (t :: rest)
            = ⟨t.name, t.threshold, (findTier amount rest).amount⟩ := by
          rw [findTier, if_pos h2]
        rw [h3]
        show t.threshold = (findTier amount rest).amount
        rcases findTier_amount_le_or_zero amount rest with hle | hz
        · exact absurd (h2.trans hle) hc
        · rw [hz] at h2 ⊢
          exact le_antisymm h2 (hpos t (List.mem_cons_self t rest))
      · have h3 : findTier ((findTier amount rest).amount) (t :: rest)
            = findTier ((findTier amount rest).amount) rest := by
          rw [findTier, if_neg h2]
        rw [h3]
        exact ih (fun x hx => hpos x (List.mem_cons_of_mem t hx))

/-- C10: over a tier table with non-negative thresholds,
`anonymizeAmount` is idempotent — re-bucketing a bucketed amount under
the same table yields the bucketed amount itself. -/
theorem anonymizeAmount_idem (amount : ℚ) (tiers : List PrivacyTier)
    (hpos : ∀ t ∈ tiers, 0 ≤ t.threshold) :
    anonymizeAmount (anonymizeAmount amount tiers) tiers
      = anonymizeAmount amount tiers := by
  unfold anonymizeAmount getPrivacyTier
  exact findTier_idem amount _
    (fun t ht => hpos t ((sortTiersDesc_perm tiers).mem_iff.mp ht))

/-- Witness for `anonymizeAmount_idem` at amount 25 against the demo
tier table. -/
theorem anonymizeAmount_idem_witness :
    (∀ t ∈ [PrivacyTier.mk "Tier A" 100, PrivacyTier.mk "Tier B" 10,
        PrivacyTier.mk "Tier C" 1], (0 : ℚ) ≤ t.threshold) ∧
    anonymizeAmount (anonymizeAmount 25 [PrivacyTier.mk "Tier A" 100,
        PrivacyTier.mk "Tier B" 10, PrivacyTier.mk "Tier C" 1])
      [PrivacyTier.mk "Tier A" 100, PrivacyTier.mk "Tier B" 10,
        PrivacyTier.mk "Tier C" 1]
      = anonymizeAmount 25 [PrivacyTier.mk "Tier A" 100,
        PrivacyTier.mk "Tier B" 10, PrivacyTier.mk "Tier C" 1] :=
  ⟨by decide, anonymizeAmount_idem 25 _ (by decide)⟩

/-- A deposit row (src/db/schema.ts, `Deposit`). -/
structure Deposit where
  id : String
  txid : String
  wallet : String
  amount : ℚ
  token : String
  timestamp : Int
  processed : Bool
  created_at : String
deriving DecidableEq

/-- Result of deposit verification (src/services/verifier.ts,
`VerificationResult`). -/
structure VerificationResult where
  valid : Bool
  reason : Option String
deriving DecidableEq

/-- `RATE_LIMIT_WINDOW_MS` from src/services/verifier.ts: one minute. -/
def RATE_LIMIT_WINDOW_MS : Int := 60000

/-- `MAX_EVENTS_PER_WINDOW` from src/services/verifier.ts. -/
def MAX_EVENTS_PER_WINDOW : Nat := 10

/-- The per-wallet ledger `rateLimitMap`: a JavaScript `Map` from wallet
to its recorded acceptance timestamps, modelled as an insertion-ordered
association list (the order in which `Map` iterates). -/
abbrev RateMap := List (String × List Int)

/-- `Map.get`: the timestamps recorded for a wallet, if any. -/
def lookupEntry (w : String) : RateMap → Option (List Int)
  | [] => none
  | e :: rest => if e.1 = w then some e.2 else lookupEntry w rest

/-- `Map.set`: overwrite in place when the key exists, else append. -/
def setEntry (w : String) (ts : List Int) : RateMap → RateMap
  | [] => [(w, ts)]
  | e :: rest => if e.1 = w then (w, ts) :: rest else e :: setEntry w ts rest

/-- `cleanupOldEntries` from src/services/verifier.ts: drop timestamps
at least one window old, then delete wallets left with no timestamps. -/
def cleanupOldEntries (now : Int) (m : RateMap) : RateMap :=
  (m.map (fun e => (e.1, e.2.filter (fun ts => now - ts < RATE_LIMIT_WINDOW_MS)))).filter
    (fun e => !e.2.isEmpty)

/-- `verifyDeposit` from src/services/verifier.ts.  The four structural
checks run first and return without touching the ledger; only then is
the ledger pruned, the rate ceiling checked, and (on success) the
current time recorded.  The source's wallet check
`!deposit.wallet || deposit.wallet.length < 20` collapses to the length
test because the empty string has length 0. -/
def verifyDeposit (now : Int) (m : RateMap) (deposit : Deposit) :
    VerificationResult × RateMap :=
  if deposit.amount ≤ 0 then
    (⟨false, some "Amount must be greater than 0"⟩, m)
  else if deposit.timestamp < now - (24 * 60 * 60 * 1000) then
    (⟨false, some "Deposit timestamp too old"⟩, m)
  else if now + 60000 < deposit.timestamp then
    (⟨false, some "Deposit timestamp in future"⟩, m)
  else if deposit.wallet.length < 20 then
    (⟨false, some "Invalid wallet address"⟩, m)
  else
    let m1 := cleanupOldEntries now m
    let ts := (lookupEntry deposit.wallet m1).getD []
    if MAX_EVENTS_PER_WINDOW ≤ ts.length then
      (⟨false, some "Rate limit exceeded"⟩, m1)
    else
      (⟨true, none⟩, setEntry deposit.wallet (ts ++ [now]) m1)

/-- `checkDuplicate` from src/services/verifier.ts: some existing
deposit shares the transaction id or the identifier. -/
def checkDuplicate (deposit : Deposit) (existingDeposits : List Deposit) : Bool :=
  existingDeposits.any (fun d => d.txid = deposit.txid || d.id = deposit.id)

/-- Whether the character sequence `pat` occurs contiguously in `l`. -/
def containsSeq (pat : List Char) : List Char → Bool
  | [] => pat.isEmpty
  | c :: rest => pat.isPrefixOf (c :: rest) || containsSeq pat rest

/-- Case-insensitive "the reason mentions this word": the lowercased
pattern occurs in the lowercased string. -/
def mentionsCI (s pat : String) : Bool :=
  containsSeq (pat.toList.map Char.toLower) (s.toList.map Char.toLower)

/-- The deposit passes the four structural checks of `verifyDeposit` at
clock reading `now`; each conjunct negates one rejection condition, in
source order. -/
abbrev structOk (now : Int) (d : Deposit) : Prop :=
  ¬ d.amount ≤ 0 ∧ ¬ d.timestamp < now - (24 * 60 * 60 * 1000) ∧
    ¬ now + 60000 < d.timestamp ∧ ¬ d.wallet.length < 20

/-- The rate-limiting stage of `verifyDeposit` (its final `else`
block), split out for reasoning about calls that pass the structural
checks. -/
def rateStage (now : Int) (m : RateMap) (d : Deposit) :
    VerificationResult × RateMap :=
  let m1 := cleanupOldEntries now m
  let ts := (lookupEntry d.wallet m1).getD []
  if MAX_EVENTS_PER_WINDOW ≤ ts.length then
    (⟨false, some "Rate limit exceeded"⟩, m1)
  else
    (⟨true, none⟩, setEntry d.wallet (ts ++ [now]) m1)

theorem verifyDeposit_eq_rateStage (now : Int) (m : RateMap) (d : Deposit)
    (h : structOk now d) :
    verifyDeposit now m d = rateStage now m d := by
  obtain ⟨h1, h2, h3, h4⟩ := h
  rw [verifyDeposit, if_neg h1, if_neg h2, if_neg h3, if_neg h4]
  rfl

/-- Sample deposit passing every structural check at clock 100000000. -/
def sampleOk : Deposit :=
  ⟨"dep-ok", "tx-ok", "wallet00000000000000toolong", 5, "USDC", 100000000, false, ""⟩

/-- Sample deposit with amount 0. -/
def sampleAmountZero : Deposit :=
  ⟨"dep-amt", "tx-amt", "wallet00000000000000", 0, "USDC", 100000000, false, ""⟩

/-- Sample deposit observed 25 hours before clock 100000000. -/
def sampleOld : Deposit :=
  ⟨"dep-old", "tx-old", "wallet00000000000000", 5, "USDC", 10000000, false, ""⟩

/-- Sample deposit observed 70 seconds after clock 100000000. -/
def sampleFuture : Deposit :=
  ⟨"dep-fut", "tx-fut", "wallet00000000000000", 5, "USDC", 100070000, false, ""⟩

/-- Sample deposit whose wallet is shorter than 20 characters. -/
def sampleShortWallet : Deposit :=
  ⟨"dep-wal", "tx-wal", "short", 5, "USDC", 100000000, false, ""⟩

/-- C6: `verifyDeposit` applies its checks in source order,
short-circuiting at the first failure: a non-positive amount is
rejected with a reason mentioning "amount"; otherwise a timestamp older
than the 24-hour freshness window is rejected with a reason mentioning
"old"; otherwise a timestamp more than 60 seconds in the future is
rejected; otherwise a wallet shorter than 20 characters is rejected.
Each branch fires exactly when all earlier checks passed, which is the
ordering/short-circuit content of the claim. -/
theorem verifyDeposit_checks_in_order (now : Int) (m : RateMap) (d : Deposit) :
    (d.amount ≤ 0 →
      (verifyDeposit now m d).1 = ⟨false, some "Amount must be greater than 0"⟩ ∧
      mentionsCI "Amount must be greater than 0" "amount" = true) ∧
    (¬ d.amount ≤ 0 → d.timestamp < now - (24 * 60 * 60 * 1000) →
      (verifyDeposit now m d).1 = ⟨false, some "Deposit timestamp too old"⟩ ∧
      mentionsCI "Deposit timestamp too old" "old" = true) ∧
    (¬ d.amount ≤ 0 → ¬ d.timestamp < now - (24 * 60 * 60 * 1000) →
        now + 60000 < d.timestamp →
      (verifyDeposit now m d).1 = ⟨false, some "Deposit timestamp in future"⟩) ∧
    (¬ d.amount ≤ 0 → ¬ d.timestamp < now - (24 * 60 * 60 * 1000) →
        ¬ now + 60000 < d.timestamp → d.wallet.length < 20 →
      (verifyDeposit now m d).1 = ⟨false, some "Invalid wallet address"⟩) := by
  refine ⟨?_, ?_, ?_, ?_⟩
  · intro h1
    rw [verifyDeposit, if_pos h1]
    exact ⟨rfl, by decide⟩
  · intro h1 h2
    rw [verifyDeposit, if_neg h1, if_pos h2]
    exact ⟨rfl, by decide⟩
  · intro h1 h2 h3
    rw [verifyDeposit, if_neg h1, if_neg h2, if_pos h3]
  · intro h1 h2 h3 h4
    rw [verifyDeposit, if_neg h1, if_neg h2, if_neg h3, if_pos h4]

/-- Witness for `verifyDeposit_checks_in_order`: each of the four
rejection branches exercised on a concrete deposit. -/
theorem verifyDeposit_checks_in_order_witness :
    (sampleAmountZero.amount ≤ 0 ∧
      (verifyDeposit 100000000 [] sampleAmountZero).1
        = ⟨false, some "Amount must be greater than 0"⟩ ∧
      mentionsCI "Amount must be greater than 0" "amount" = true) ∧
    (¬ sampleOld.amount ≤ 0 ∧
      sampleOld.timestamp < 100000000 - (24 * 60 * 60 * 1000) ∧
      (verifyDeposit 100000000 [] sampleOld).1
        = ⟨false, some "Deposit timestamp too old"⟩ ∧
      mentionsCI "Deposit timestamp too old" "old" = true) ∧
    (¬ sampleFuture.amount ≤ 0 ∧
      ¬ sampleFuture.timestamp < 100000000 - (24 * 60 * 60 * 1000) ∧
      100000000 + 60000 < sampleFuture.timestamp ∧
      (verifyDeposit 100000000 [] sampleFuture).1
        = ⟨false, some "Deposit timestamp in future"⟩) ∧
    (¬ sampleShortWallet.amount ≤ 0 ∧
      ¬ sampleShortWallet.timestamp < 100000000 - (24 * 60 * 60 * 1000) ∧
      ¬ 100000000 + 60000 < sampleShortWallet.timestamp ∧
      sampleShortWallet.wallet.length < 20 ∧
      (verifyDeposit 100000000 [] sampleShortWallet).1
        = ⟨false, some "Invalid wallet address"⟩) :=
  ⟨⟨by decide,
    (verifyDeposit_checks_in_order 100000000 [] sampleAmountZero).1 (by decide)⟩,
   ⟨by decide, by decide,
    (verifyDeposit_checks_in_order 100000000 [] sampleOld).2.1 (by decide) (by decide)⟩,
   ⟨by decide, by decide, by decide,
    (verifyDeposit_checks_in_order 100000000 [] sampleFuture).2.2.1
      (by decide) (by decide) (by decide)⟩,
   ⟨by decide, by decide, by decide, by decide,
    (verifyDeposit_checks_in_order 100000000 [] sampleShortWallet).2.2.2
      (by decide) (by decide) (by decide) (by decide)⟩⟩

theorem cleanupOldEntries_replicate (now : Int) (w : String) (k : Nat)
    (hk : 1 ≤ k) :
    cleanupOldEntries now [(w, List.replicate k now)]
      = [(w, List.replicate k now)] := by
  obtain ⟨j, rfl⟩ : ∃ j, k = j + 1 := ⟨k - 1, by omega⟩
  have hfilter : (List.replicate (j + 1) now).filter
      (fun ts => decide (now - ts < RATE_LIMIT_WINDOW_MS))
        = List.replicate (j + 1) now := by
    apply List.filter_eq_self.mpr
    intro a ha
    rw [List.eq_of_mem_replicate ha, decide_eq_true_eq]
    rw [RATE_LIMIT_WINDOW_MS]
    omega
  simp only [cleanupOldEntries, List.map_cons, List.map_nil, hfilter]
  rw [List.filter_cons]
  simp [List.replicate_succ]

theorem cleanupOldEntries_drops_stale (now now₂ : Int) (w : String) (k : Nat)
    (h : now + RATE_LIMIT_WINDOW_MS ≤ now₂) :
    cleanupOldEntries now₂ [(w, List.replicate k now)] = [] := by
  have hfilter : (List.replicate k now).filter
      (fun ts => decide (now₂ - ts < RATE_LIMIT_WINDOW_MS)) = [] := by
    apply List.filter_eq_nil_iff.mpr
    intro a ha
    rw [List.eq_of_mem_replicate ha]
    simp only [decide_eq_true_eq]
    omega
  simp only [cleanupOldEntries, List.map_cons, List.map_nil, hfilter]
  rw [List.filter_cons]
  simp

theorem verifyDeposit_empty_map (now : Int) (d : Deposit) (h : structOk now d) :
    verifyDeposit now [] d = (⟨true, none⟩, [(d.wallet, List.replicate 1 now)]) := by
  rw [verifyDeposit_eq_rateStage now [] d h]
  rw [rateStage]
  simp [cleanupOldEntries, lookupEntry, setEntry, MAX_EVENTS_PER_WINDOW,
    List.replicate_succ]

theorem verifyDeposit_step_replicate (now : Int) (d : Deposit) (k : Nat)
    (h : structOk now d) (hk1 : 1 ≤ k) (hk : k < MAX_EVENTS_PER_WINDOW) :
    verifyDeposit now [(d.wallet, List.replicate k now)] d
      = (⟨true, none⟩, [(d.wallet, List.replicate (k + 1) now)]) := by
  have hM : MAX_EVENTS_PER_WINDOW = 10 := rfl
  rw [hM] at hk
  have hnotle : ¬ MAX_EVENTS_PER_WINDOW ≤ k := by rw [hM]; omega
  rw [verifyDeposit_eq_rateStage now _ d h, rateStage,
      cleanupOldEntries_replicate now d.wallet k hk1]
  simp [lookupEntry, setEntry, hnotle, List.replicate_succ']

theorem verifyDeposit_rate_exceeded (now : Int) (d : Deposit)
    (h : structOk now d) :
    verifyDeposit now [(d.wallet, List.replicate MAX_EVENTS_PER_WINDOW now)] d
      = (⟨false, some "Rate limit exceeded"⟩,
         [(d.wallet, List.replicate MAX_EVENTS_PER_WINDOW now)]) := by
  rw [verifyDeposit_eq_rateStage now _ d h, rateStage,
      cleanupOldEntries_replicate now d.wallet MAX_EVENTS_PER_WINDOW (by decide)]
  simp [lookupEntry]

/-- Per-call state iteration of `verifyDeposit`: `verifyIter now d k m`
is the ledger after `k` further calls on deposit `d` at clock `now`
starting from ledger `m`. -/
def verifyIter (now : Int) (d : Deposit) : Nat → RateMap → RateMap
  | 0, m => m
  | k + 1, m => verifyIter now d k (verifyDeposit now m d).2

theorem verifyIter_replicate (now : Int) (d : Deposit) (h : structOk now d) :
    ∀ k j : Nat, 1 ≤ j → j + k ≤ MAX_EVENTS_PER_WINDOW →
      verifyIter now d k [(d.wallet, List.replicate j now)]
        = [(d.wallet, List.replicate (j + k) now)] := by
  intro k
  induction k with
  | zero => intro j hj hjk; rw [verifyIter, Nat.add_zero]
  | succ k ih =>
    intro j hj hjk
    have hM : MAX_EVENTS_PER_WINDOW = 10 := rfl
    rw [hM] at hjk
    rw [verifyIter, verifyDeposit_step_replicate now d j h hj (by rw [hM]; omega)]
    rw [ih (j + 1) (by omega) (by rw [hM]; omega)]
    rw [show j + 1 + k = j + (k + 1) by omega]

theorem verifyIter_from_empty (now : Int) (d : Deposit) (h : structOk now d)
    (k : Nat) (hk1 : 1 ≤ k) (hk : k ≤ MAX_EVENTS_PER_WINDOW) :
    verifyIter now d k [] = [(d.wallet, List.replicate k now)] := by
  obtain ⟨j, rfl⟩ : ∃ j, k = j + 1 := ⟨k - 1, by omega⟩
  rw [verifyIter, verifyDeposit_empty_map now d h]
  rw [verifyIter_replicate now d h j 1 (le_refl 1)
    (by have hM : MAX_EVENTS_PER_WINDOW = 10 := rfl; rw [hM] at hk ⊢; omega)]
  rw [show 1 + j = j + 1 by omega]

/-- C7: starting from an empty ledger, a structurally valid deposit is
accepted on each of the first 10 calls within the window, the 11th call
at the same clock fails with the rate-limit reason, and any
structurally valid call made one full window later (for any wallet)
succeeds again. -/
theorem verifyDeposit_rate_limit (now : Int) (d : Deposit) (h : structOk now d) :
    (∀ k, k < MAX_EVENTS_PER_WINDOW →
      (verifyDeposit now (verifyIter now d k []) d).1 = ⟨true, none⟩) ∧
    (verifyDeposit now (verifyIter now d MAX_EVENTS_PER_WINDOW []) d).1
      = ⟨false, some "Rate limit exceeded"⟩ ∧
    (∀ now₂ d₂, now + RATE_LIMIT_WINDOW_MS ≤ now₂ → structOk now₂ d₂ →
      (verifyDeposit now₂
          ((verifyDeposit now (verifyIter now d MAX_EVENTS_PER_WINDOW []) d).2)
          d₂).1 = ⟨true, none⟩) := by
  have hM : MAX_EVENTS_PER_WINDOW = 10 := rfl
  have hstate : verifyIter now d MAX_EVENTS_PER_WINDOW []
      = [(d.wallet, List.replicate MAX_EVENTS_PER_WINDOW now)] :=
    verifyIter_from_empty now d h MAX_EVENTS_PER_WINDOW (by decide) (le_refl _)
  refine ⟨?_, ?_, ?_⟩
  · intro k hk
    rcases Nat.eq_zero_or_pos k with rfl | hpos
    · rw [verifyIter, verifyDeposit_empty_map now d h]
    · rw [verifyIter_from_empty now d h k hpos (le_of_lt hk)]
      rw [verifyDeposit_step_replicate now d k h hpos hk]
  · rw [hstate, verifyDeposit_rate_exceeded now d h]
  · intro now₂ d₂ hwin h₂
    rw [hstate, verifyDeposit_rate_exceeded now d h]
    rw [verifyDeposit_eq_rateStage now₂ _ d₂ h₂]
    rw [rateStage]
    rw [cleanupOldEntries_drops_stale now now₂ d.wallet MAX_EVENTS_PER_WINDOW hwin]
    simp [lookupEntry, MAX_EVENTS_PER_WINDOW]

/-- Witness for `verifyDeposit_rate_limit`: the 11th call on the sample
deposit at clock 100000000 is rate-limited. -/
theorem verifyDeposit_rate_limit_witness :
    structOk 100000000 sampleOk ∧
    (verifyDeposit 100000000
        (verifyIter 100000000 sampleOk MAX_EVENTS_PER_WINDOW []) sampleOk).1
      = ⟨false, some "Rate limit exceeded"⟩ :=
  ⟨by decide, (verifyDeposit_rate_limit 100000000 sampleOk (by decide)).2.1⟩

theorem cleanupOldEntries_fresh (now : Int) (m : RateMap) :
    ∀ e ∈ cleanupOldEntries now m, ∀ ts ∈ e.2,
      now - ts < RATE_LIMIT_WINDOW_MS := by
  intro e he ts hts
  rw [cleanupOldEntries] at he
  have he' := (List.mem_filter.mp he).1
  rcases List.mem_map.mp he' with ⟨e0, _, rfl⟩
  have hpred := (List.mem_filter.mp hts).2
  simpa using hpred

theorem lookupEntry_mem (w : String) (m : RateMap) (l : List Int)
    (h : lookupEntry w m = some l) : (w, l) ∈ m := by
  induction m with
  | nil => simp [lookupEntry] at h
  | cons e rest ih =>
    rw [lookupEntry] at h
    by_cases hc : e.1 = w
    · rw [if_pos hc] at h
      have h2 := Option.some.inj h
      have he : e = (w, l) := by
        obtain ⟨a, b⟩ := e
        rw [Prod.mk.injEq]
        exact ⟨hc, h2⟩
      rw [← he]
      exact List.mem_cons_self e rest
    · rw [if_neg hc] at h
      exact List.mem_cons_of_mem e (ih h)

theorem setEntry_mem (w : String) (l : List Int) (m : RateMap) :
    ∀ e ∈ setEntry w l m, e = (w, l) ∨ e ∈ m := by
  induction m with
  | nil =>
    intro e he
    rw [setEntry] at he
    exact Or.inl (List.mem_singleton.mp he)
  | cons e0 rest ih =>
    intro e he
    rw [setEntry] at he
    by_cases hc : e0.1 = w
    · rw [if_pos hc] at he
      rcases List.mem_cons.mp he with rfl | h'
      · exact Or.inl rfl
      · exact Or.inr (List.mem_cons_of_mem e0 h')
    · rw [if_neg hc] at he
      rcases List.mem_cons.mp he with he0 | h'
      · rw [he0]
        exact Or.inr (List.mem_cons_self e0 rest)
      · rcases ih e h' with h1 | h2
        · exact Or.inl h1
        · exact Or.inr (List.mem_cons_of_mem e0 h2)

/-- C8 (amended): pruning happens on every invocation that reaches the
rate-limiting stage: when the deposit passes the four structural
checks, the returned ledger contains no timestamp one window or more
old; an invocation that fails an earlier structural check instead
returns the ledger unchanged, stale entries included (the unrestricted
claim is refuted by `verifyDeposit_no_prune_on_early_failure`). -/
theorem verifyDeposit_prunes_when_rate_checked (now : Int) (m : RateMap)
    (d : Deposit) :
    (structOk now d →
      ∀ e ∈ (verifyDeposit now m d).2, ∀ ts ∈ e.2,
        now - ts < RATE_LIMIT_WINDOW_MS) ∧
    (¬ structOk now d → (verifyDeposit now m d).2 = m) := by
  constructor
  · intro h e he ts hts
    rw [verifyDeposit_eq_rateStage now m d h] at he
    simp only [rateStage] at he
    split at he
    · exact cleanupOldEntries_fresh now m e he ts hts
    · rcases setEntry_mem _ _ _ e he with rfl | hmem
      · rcases List.mem_append.mp hts with h1 | h2
        · cases hlk : lookupEntry d.wallet (cleanupOldEntries now m) with
          | none => rw [hlk] at h1; simp at h1
          | some l =>
            rw [hlk] at h1
            simp only [Option.getD_some] at h1
            exact cleanupOldEntries_fresh now m (d.wallet, l)
              (lookupEntry_mem _ _ _ hlk) ts h1
        · have hn : ts = now := by simpa using h2
          rw [hn, RATE_LIMIT_WINDOW_MS]
          omega
      · exact cleanupOldEntries_fresh now m e hmem ts hts
  · intro hno
    rw [verifyDeposit]
    by_cases h1 : d.amount ≤ 0
    · rw [if_pos h1]
    · rw [if_neg h1]
      by_cases h2 : d.timestamp < now - (24 * 60 * 60 * 1000)
      · rw [if_pos h2]
      · rw [if_neg h2]
        by_cases h3 : now + 60000 < d.timestamp
        · rw [if_pos h3]
        · rw [if_neg h3]
          by_cases h4 : d.wallet.length < 20
          · rw [if_pos h4]
          · exact absurd ⟨h1, h2, h3, h4⟩ hno

/-- Witness for `verifyDeposit_prunes_when_rate_checked`: a rate-checked
call at clock 100000000 leaves only fresh entries, while a call failing
the amount check leaves the stale ledger untouched. -/
theorem verifyDeposit_prunes_when_rate_checked_witness :
    (structOk 100000000 sampleOk ∧
      ∀ e ∈ (verifyDeposit 100000000 [("w", [0])] sampleOk).2, ∀ ts ∈ e.2,
        (100000000 : Int) - ts < RATE_LIMIT_WINDOW_MS) ∧
    (¬ structOk 100000000 sampleAmountZero ∧
      (verifyDeposit 100000000 [("w", [0])] sampleAmountZero).2
        = [("w", [0])]) :=
  ⟨⟨by decide,
    (verifyDeposit_prunes_when_rate_checked 100000000 [("w", [0])] sampleOk).1
      (by decide)⟩,
   ⟨by decide,
    (verifyDeposit_prunes_when_rate_checked 100000000 [("w", [0])]
        sampleAmountZero).2 (by decide)⟩⟩

/-- C8 counterexample: an invocation that fails the amount check (the
first structural check) returns the ledger unpruned: at clock 70000
the acceptance timestamp 0 is a full window old, yet it survives the
call. -/
theorem verifyDeposit_no_prune_on_early_failure :
    (verifyDeposit 70000 [("wallet00000000000000", [0])] sampleAmountZero).2
        = [("wallet00000000000000", [0])] ∧
    ¬ ((70000 : Int) - 0 < RATE_LIMIT_WINDOW_MS) := by
  constructor
  · decide
  · decide

/-- An attestation row (src/db/schema.ts, `Attestation`), with the six
columns written by the minter's INSERT; `minted_at` is filled by a
database default and never read by the core, so it is omitted. -/
structure Attestation where
  id : String
  deposit_id : String
  wallet : String
  tier : String
  token_id : Option String
  metadata : String
deriving DecidableEq

/-- The persisted tables the minter touches. -/
structure DBState where
  deposits : List Deposit
  attestations : List Attestation
deriving DecidableEq

/-- A recorded invocation of the delegated minting capability, with the
arguments it was given; `mintAttestation` returns the list of
invocations it made so that "does not invoke the minting capability"
is directly checkable. -/
structure MintCapCall where
  wallet : String
  tier : String
  metadataUri : Option String
deriving DecidableEq

/-- `MintResult` from src/services/minter.ts. -/
structure MintResult where
  success : Bool
  attestationId : Option String
  tokenId : Option String
  error : Option String
deriving DecidableEq

/-- The metadata blob `JSON.stringify(\x7bdepositId, tier, timestamp,
metadataUri\x7d)` built at mint time; `JSON.stringify` omits the
`metadataUri` key when the argument is `undefined`. -/
def metadataBlob (depositId tier : String) (now : Int) (uri : Option String) :
    String :=
  "\x7b\"depositId\":\"" ++ depositId ++ "\",\"tier\":\"" ++ tier ++
    "\",\"timestamp\":" ++ toString now ++
    (match uri with
     | some u => ",\"metadataUri\":\"" ++ u ++ "\""
     | none => "") ++ "\x7d"

/-- The row update performed by `UPDATE deposits SET processed = 1`. -/
def markProcessed (d : Deposit) : Deposit :=
  ⟨d.id, d.txid, d.wallet, d.amount, d.token, d.timestamp, true, d.created_at⟩

/-- `UPDATE deposits SET processed = 1 WHERE id = ?`. -/
def setProcessed (depId : String) (ds : List Deposit) : List Deposit :=
  ds.map (fun d => if d.id = depId then markProcessed d else d)

/-- `MinterService.mintAttestation` from src/services/minter.ts, with
the delegated minting capability (`mintOnEthereum` / `mintOnSolana` /
`mintMock`, any of which may fail — the surrounding try/catch turns the
thrown error into a failure result), the generated attestation id
(`uuidv4()`) and the clock passed explicitly.  Returns the result, the
updated store, and the capability invocations made. -/
def mintAttestation
    (mintCap : String → String → Option String → Except String String)
    (freshId : String) (now : Int) (st : DBState)
    (deposit : Deposit) (tier : String) (metadataUri : Option String) :
    MintResult × DBState × List MintCapCall :=
  if deposit.processed then
    (⟨false, none, none, some "Deposit already processed"⟩, st, [])
  else
    match mintCap deposit.wallet tier metadataUri with
    | Except.error e =>
      (⟨false, none, none, some e⟩, st, [⟨deposit.wallet, tier, metadataUri⟩])
    | Except.ok tokenId =>
      let att : Attestation := ⟨freshId, deposit.id, deposit.wallet, tier,
        some tokenId, metadataBlob deposit.id tier now metadataUri⟩
      (⟨true, some freshId, some tokenId, none⟩,
       ⟨setProcessed deposit.id st.deposits, st.attestations ++ [att]⟩,
       [⟨deposit.wallet, tier, metadataUri⟩])

/-- C3: minting an already-processed deposit returns failure with the
prior-processing reason, invokes the minting capability zero times, and
leaves the deposit and attestation store unchanged. -/
theorem mintAttestation_already_processed
    (mintCap : String → String → Option String → Except String String)
    (freshId : String) (now : Int) (st : DBState)
    (deposit : Deposit) (tier : String) (uri : Option String)
    (h : deposit.processed = true) :
    mintAttestation mintCap freshId now st deposit tier uri
      = (⟨false, none, none, some "Deposit already processed"⟩, st, []) := by
  rw [mintAttestation, if_pos h]

/-- A processed sample deposit. -/
def sampleProcessed : Deposit :=
  ⟨"dep-done", "tx-done", "wallet00000000000000", 5, "USDC", 100000000, true, ""⟩

/-- A minting capability that always succeeds with token "token-1". -/
def sampleCapOk : String → String → Option String → Except String String :=
  fun _ _ _ => Except.ok "token-1"

/-- A minting capability that always fails with a network error. -/
def sampleCapFail : String → String → Option String → Except String String :=
  fun _ _ _ => Except.error "network error"

/-- Witness for `mintAttestation_already_processed` on a concrete
processed deposit. -/
theorem mintAttestation_already_processed_witness :
    sampleProcessed.processed = true ∧
    mintAttestation sampleCapOk "att-1" 100000000 ⟨[sampleProcessed], []⟩
        sampleProcessed "Tier B" none
      = (⟨false, none, none, some "Deposit already processed"⟩,
         ⟨[sampleProcessed], []⟩, []) :=
  ⟨rfl, mintAttestation_already_processed sampleCapOk "att-1" 100000000
      ⟨[sampleProcessed], []⟩ sampleProcessed "Tier B" none rfl⟩

/-- C4: when the delegated capability fails on an unprocessed deposit,
the result is a failure carrying the underlying error message, and the
store is returned unchanged: no attestation is persisted and the
deposit's processed flag stays false. -/
theorem mintAttestation_cap_failure
    (mintCap : String → String → Option String → Except String String)
    (freshId : String) (now : Int) (st : DBState)
    (deposit : Deposit) (tier : String) (uri : Option String) (e : String)
    (h1 : deposit.processed = false)
    (h2 : mintCap deposit.wallet tier uri = Except.error e) :
    mintAttestation mintCap freshId now st deposit tier uri
      = (⟨false, none, none, some e⟩, st, [⟨deposit.wallet, tier, uri⟩]) := by
  rw [mintAttestation, if_neg (by simp [h1]), h2]

/-- Witness for `mintAttestation_cap_failure` on a concrete failing
capability. -/
theorem mintAttestation_cap_failure_witness :
    sampleOk.processed = false ∧
    sampleCapFail sampleOk.wallet "Tier B" none = Except.error "network error" ∧
    mintAttestation sampleCapFail "att-1" 100000000 ⟨[sampleOk], []⟩
        sampleOk "Tier B" none
      = (⟨false, none, none, some "network error"⟩, ⟨[sampleOk], []⟩,
         [⟨sampleOk.wallet, "Tier B", none⟩]) :=
  ⟨rfl, rfl,
   mintAttestation_cap_failure sampleCapFail "att-1" 100000000 ⟨[sampleOk], []⟩
     sampleOk "Tier B" none "network error" rfl rfl⟩

theorem setProcessed_mem_processed (depId : String) (ds : List Deposit) :
    ∀ d ∈ setProcessed depId ds, d.id = depId → d.processed = true := by
  intro d hd hid
  rcases List.mem_map.mp hd with ⟨d0, _, rfl⟩
  by_cases hc : d0.id = depId
  · rw [if_pos hc]
    rfl
  · rw [if_neg hc] at hid ⊢
    exact absurd hid hc

/-- C5: a successful mint on an unprocessed deposit returns success,
appends exactly one new attestation — which references the deposit's
identifier — to the store, marks every stored deposit with that
identifier processed, and a subsequent `mintAttestation` call on the
stored (now processed) deposit row is rejected with the
prior-processing reason. -/
theorem mintAttestation_success
    (mintCap : String → String → Option String → Except String String)
    (freshId : String) (now : Int) (st : DBState)
    (deposit : Deposit) (tier : String) (uri : Option String) (tok : String)
    (h1 : deposit.processed = false)
    (h2 : mintCap deposit.wallet tier uri = Except.ok tok) :
    (mintAttestation mintCap freshId now st deposit tier uri).1.success = true ∧
    (∃ a : Attestation,
      (mintAttestation mintCap freshId now st deposit tier uri).2.1.attestations
        = st.attestations ++ [a] ∧ a.deposit_id = deposit.id) ∧
    (∀ d ∈ (mintAttestation mintCap freshId now st deposit tier uri).2.1.deposits,
      d.id = deposit.id → d.processed = true) ∧
    (∀ d ∈ (mintAttestation mintCap freshId now st deposit tier uri).2.1.deposits,
      d.id = deposit.id →
      ∀ cap2 : String → String → Option String → Except String String,
      ∀ (fid2 : String) (now2 : Int) (st2 : DBState) (tier2 : String)
          (uri2 : Option String),
        (mintAttestation cap2 fid2 now2 st2 d tier2 uri2).1
          = ⟨false, none, none, some "Deposit already processed"⟩) := by
  have hmain : mintAttestation mintCap freshId now st deposit tier uri
      = (⟨true, some freshId, some tok, none⟩,
         ⟨setProcessed deposit.id st.deposits,
          st.attestations ++ [⟨freshId, deposit.id, deposit.wallet, tier,
            some tok, metadataBlob deposit.id tier now uri⟩]⟩,
         [⟨deposit.wallet, tier, uri⟩]) := by
    rw [mintAttestation, if_neg (by simp [h1]), h2]
  refine ⟨by rw [hmain], ⟨_, by rw [hmain], rfl⟩, ?_, ?_⟩
  · intro d hd hid
    rw [hmain] at hd
    exact setProcessed_mem_processed deposit.id st.deposits d hd hid
  · intro d hd hid cap2 fid2 now2 st2 tier2 uri2
    have hp : d.processed = true := by
      rw [hmain] at hd
      exact setProcessed_mem_processed deposit.id st.deposits d hd hid
    rw [mintAttestation, if_pos hp]

/-- Witness for `mintAttestation_success` on a concrete unprocessed
deposit and succeeding capability. -/
theorem mintAttestation_success_witness :
    sampleOk.processed = false ∧
    sampleCapOk sampleOk.wallet "Tier B" none = Except.ok "token-1" ∧
    (mintAttestation sampleCapOk "att-1" 100000000 ⟨[sampleOk], []⟩
        sampleOk "Tier B" none).1.success = true :=
  ⟨rfl, rfl,
   (mintAttestation_success sampleCapOk "att-1" 100000000 ⟨[sampleOk], []⟩
      sampleOk "Tier B" none "token-1" rfl rfl).1⟩

/-- An incoming deposit event (src/listeners/humidifiListener.ts,
`DepositEvent`). -/
structure DepositEvent where
  id : String
  txid : String
  wallet : String
  amount : ℚ
  token : String
  timestamp : Int
deriving DecidableEq

/-- Events the deposit handler emits to connected clients
(`io.emit` in src/index.ts). -/
inductive Broadcast where
  | depositNew (ev : DepositEvent)
  | depositVerified (depositId : String) (valid : Bool) (reason : Option String)
  | attestationMinted (depositId wallet tier : String) (tokenId : Option String)
deriving DecidableEq

/-- The configured run mode (src/config/loadConfig.ts). -/
inductive Mode where
  | mock
  | ethereum
  | solana
deriving DecidableEq

/-- The `listener.on('deposit', ...)` handler of src/index.ts: build the
row, INSERT it (the insert throws on a duplicate primary key `id`, in
which case the surrounding try/catch aborts with nothing emitted),
emit `deposit:new`, verify, emit the verification result — the
duplicate check queries `deposits WHERE txid = ?` against the store
that already contains the just-inserted row — and in mock mode
auto-mint and emit `attestation:minted` on success (mint failures are
only logged).  Returns the updated store, the rate ledger, and the
emitted broadcasts in order. -/
def handleDepositEvent (mode : Mode) (tiers : List PrivacyTier)
    (mintCap : String → String → Option String → Except String String)
    (freshId : String) (now : Int) (createdAt : String)
    (st : DBState) (rm : RateMap) (ev : DepositEvent) :
    DBState × RateMap × List Broadcast :=
  let dbDeposit : Deposit :=
    ⟨ev.id, ev.txid, ev.wallet, ev.amount, ev.token, ev.timestamp, false, createdAt⟩
  if st.deposits.any (fun d => d.id = ev.id) then
    (st, rm, [])
  else
    let st1 : DBState := ⟨st.deposits ++ [dbDeposit], st.attestations⟩
    let vr := verifyDeposit now rm dbDeposit
    if vr.1.valid = false then
      (st1, vr.2,
       [Broadcast.depositNew ev,
        Broadcast.depositVerified ev.id false vr.1.reason])
    else
      let existing := st1.deposits.filter (fun d => d.txid = ev.txid)
      if checkDuplicate dbDeposit existing then
        (st1, vr.2,
         [Broadcast.depositNew ev,
          Broadcast.depositVerified ev.id false (some "Duplicate deposit")])
      else
        match mode with
        | Mode.mock =>
          let tier := getPrivacyTier ev.amount tiers
          let mr := mintAttestation mintCap freshId now st1 dbDeposit tier.tier none
          if mr.1.success then
            (mr.2.1, vr.2,
             [Broadcast.depositNew ev,
              Broadcast.depositVerified ev.id true none,
              Broadcast.attestationMinted ev.id ev.wallet tier.tier mr.1.tokenId])
          else
            (mr.2.1, vr.2,
             [Broadcast.depositNew ev,
              Broadcast.depositVerified ev.id true none])
        | _ =>
          (st1, vr.2,
           [Broadcast.depositNew ev, Broadcast.depositVerified ev.id true none])

/-- Whatever passes verification is reported as a duplicate: the
just-inserted row always matches itself by txid and id, so the handler
never reaches the "verified" broadcast (general form of the C1 code
bug). -/
theorem handleDepositEvent_self_duplicate (mode : Mode)
    (tiers : List PrivacyTier)
    (mintCap : String → String → Option String → Except String String)
    (freshId : String) (now : Int) (createdAt : String)
    (st : DBState) (rm : RateMap) (ev : DepositEvent)
    (hins : st.deposits.any (fun d => d.id = ev.id) = false)
    (hv : (verifyDeposit now rm ⟨ev.id, ev.txid, ev.wallet, ev.amount, ev.token,
        ev.timestamp, false, createdAt⟩).1.valid = true) :
    (handleDepositEvent mode tiers mintCap freshId now createdAt st rm ev).2.2
      = [Broadcast.depositNew ev,
         Broadcast.depositVerified ev.id false (some "Duplicate deposit")] := by
  simp only [handleDepositEvent]
  rw [if_neg (by simp [hins]), if_neg (by simp [hv])]
  rw [if_pos ?hdup]
  case hdup =>
    apply List.any_eq_true.mpr
    refine ⟨⟨ev.id, ev.txid, ev.wallet, ev.amount, ev.token, ev.timestamp,
      false, createdAt⟩, ?_, ?_⟩
    · apply List.mem_filter.mpr
      exact ⟨List.mem_append_right _ (List.mem_singleton_self _), by simp⟩
    · simp

/-- The sample deposit event used as C1's failing input: structurally
valid, arriving on an empty store, so no previously persisted deposit
shares its transaction reference or identifier. -/
def sampleEvent : DepositEvent :=
  ⟨"dep-ok", "tx-ok", "wallet00000000000000toolong", 5, "USDC", 100000000⟩

/-- The demo tier table of the configuration. -/
def demoTiers : List PrivacyTier :=
  [⟨"Tier A", 100⟩, ⟨"Tier B", 10⟩, ⟨"Tier C", 1⟩]

/-- C1 (refuted; code bug): a structurally valid deposit event arriving
on an empty store — its transaction reference and identifier occur in
no previously persisted deposit — is broadcast as "Duplicate deposit",
not as verified, and nothing is minted.  The handler inserts the
deposit before querying `deposits WHERE txid = ?`, so the query returns
the just-inserted row and `checkDuplicate` matches the deposit against
itself by both txid and id. -/
theorem pipeline_flags_fresh_deposit_as_duplicate :
    handleDepositEvent Mode.mock demoTiers sampleCapOk "att-1" 100000000 ""
        ⟨[], []⟩ [] sampleEvent
      = (⟨[⟨"dep-ok", "tx-ok", "wallet00000000000000toolong", 5, "USDC",
            100000000, false, ""⟩], []⟩,
         [("wallet00000000000000toolong", [100000000])],
         [Broadcast.depositNew sampleEvent,
          Broadcast.depositVerified "dep-ok" false (some "Duplicate deposit")]) := by
  decide

end Scotopia
